import Mathlib

/-!
Verification development for the EFX snip-library core
(`src/scripts/python/snip_ui/read_snip_ui_bk02.py` and
`src/scripts/python/snip_ui/write_snip_ui.py`).

The Python source is shallowly embedded: pure string-manipulation helpers
become Lean functions on `List Char` / `String`, the mutable UI/filesystem
state becomes an explicit record that the embedded operations transform,
and exceptions become `Option` results or early-return branches that emit
the dialog the corresponding `except` handler shows.  Filesystem rename
and delete follow POSIX `os.rename` / `os.unlink` semantics (rename onto
an existing regular file silently replaces it; rename of a directory onto
a non-empty directory raises).  Characters are treated as ASCII, which is
the range the identifiers in this repository use; the Python regexes
`[^a-zA-Z0-9 ]` and `[^\w\-_\. ]` are embedded accordingly.

Note that `read_snip_ui_bk02.py` defines several methods of
`MyShelfToolUI` more than once; in Python the last definition in the class
body is the one that executes, so the embeddings below follow the final
definition of each method (line numbers are given at each definition).
-/

namespace EFX

/-! ## Association-list helpers

Python dictionaries (`preview_cache`, `json_cache`) and flat directories
(the per-user snip folder, the flipbook and snapshot folders) are embedded
as association lists from names to contents. -/

/-- Lookup in an association list (Python `d.get(k)` / path existence). -/
def lookupA {α : Type} : List (String × α) → String → Option α
  | [], _ => none
  | p :: l, k => if p.1 == k then some p.2 else lookupA l k

/-- Removal from an association list (Python `d.pop(k, None)` /
`os.unlink`, `shutil.rmtree`). -/
def eraseA {α : Type} : List (String × α) → String → List (String × α)
  | [], _ => []
  | p :: l, k => if p.1 == k then eraseA l k else p :: eraseA l k

/-- Move the binding of `old` to `new`, replacing what was bound at `new`
(POSIX `os.rename` on regular files silently replaces the target). -/
def moveA {α : Type} (l : List (String × α)) (old new : String) (v : α) :
    List (String × α) :=
  eraseA (eraseA l old) new ++ [(new, v)]

/-! ## Character classes and Python string primitives -/

/-- The Python regex class `[a-zA-Z0-9]` (ASCII): `Char.isAlphanum` in Lean
checks exactly these ranges. -/
abbrev isAlnumA (c : Char) : Bool := c.isAlphanum

/-- The Python regex class `\w` over ASCII: alphanumerics plus underscore. -/
def isWordCharA (c : Char) : Bool := c.isAlphanum || c == '_'

/-- Characters kept by the regex substitution `re.sub(r'[^\w\-_\. ]', '', text)`
shared by `WriteSnipUI.to_camel_case` (write_snip_ui.py:587) and
`WriteSnipUI.sanitize_filename` (write_snip_ui.py:640). -/
def isCamelKept (c : Char) : Bool :=
  isWordCharA c || c == '-' || c == '.' || c == ' '

/-- Python `str.capitalize()`: first character upper-cased, the rest
lower-cased (ASCII). -/
def pyCapitalize : List Char → List Char
  | [] => []
  | c :: cs => c.toUpper :: cs.map Char.toLower

/-- Python `str.split()` with no separator: split on whitespace runs,
discarding empty words.  `cur` is the (reversed) word being accumulated. -/
def pyWordsAux (cur : List Char) : List Char → List (List Char)
  | [] => if cur.isEmpty then [] else [cur.reverse]
  | c :: cs =>
    if c.isWhitespace then
      if cur.isEmpty then pyWordsAux [] cs else cur.reverse :: pyWordsAux [] cs
    else pyWordsAux (c :: cur) cs

def pyWords (l : List Char) : List (List Char) := pyWordsAux [] l

/-- Python `str.split(sep)` for a one-character separator: keeps empty
pieces, and splitting the empty string yields one empty piece. -/
def pySplitOn (sep : Char) : List Char → List (List Char)
  | [] => [[]]
  | c :: cs =>
    if c == sep then [] :: pySplitOn sep cs
    else
      match pySplitOn sep cs with
      | [] => [[c]]
      | w :: ws => (c :: w) :: ws

/-- Python `str.zfill(2)` on the non-negative digit strings produced by the
version line edit: pad on the left with zeros to width two. -/
def zfill2 (s : List Char) : List Char :=
  if 2 ≤ s.length then s else List.replicate (2 - s.length) '0' ++ s

/-! ## MyShelfToolUI.format_name (read_snip_ui_bk02.py:3510-3520)

```python
def format_name(self, input_string):
    cleaned = re.sub(r'[^a-zA-Z0-9 ]', '', input_string)
    words = cleaned.split()
    formatted = words[0].lower() + ''.join(word.capitalize() for word in words[1:])
    return formatted
```

`words[0]` raises `IndexError` when `words` is empty; the embedding
returns `none` in that case. -/

def formatNameL (s : List Char) : Option (List Char) :=
  let cleaned := s.filter (fun c => isAlnumA c || c == ' ')
  match pyWords cleaned with
  | [] => none
  | w :: ws => some (w.map Char.toLower ++ (ws.map pyCapitalize).flatten)

def formatName (s : String) : Option String :=
  (formatNameL s.data).map List.asString

/-! ## WriteSnipUI.to_camel_case / update_file_name / sanitize_filename
(write_snip_ui.py:585-603, 640-641)

```python
@staticmethod
def to_camel_case(text):
    text = re.sub(r'[^\w\-_\. ]', '', text).replace(' ', '_')
    words = text.split('_')
    return words[0].lower() + ''.join(word.capitalize() for word in words[1:])

def update_file_name(self):
    context = self.to_camel_case(self.Context.currentText())
    type_ = self.to_camel_case(self.Type.currentText())
    name = self.to_camel_case(self.Name.currentText())
    source = self.to_camel_case(self.Source.currentText())
    version = self.Version.text().zfill(2)
    file_name = f"CTX_TY_NM_SRC_vVV"  -- joined with underscores
    file_name = self.sanitize_filename(file_name)

def sanitize_filename(self, filename):
    return re.sub(r'[^\w\-_\. ]', '', filename).replace(' ', '_')
```

The version line edit carries `QIntValidator(1, CONFIG["MAX_VERSION"])`
with `MAX_VERSION = 10` (write_snip_ui.py:28-29, 245-247). -/

def toCamelCaseL (s : List Char) : List Char :=
  let t := (s.filter isCamelKept).map (fun c => if c == ' ' then '_' else c)
  match pySplitOn '_' t with
  | [] => []
  | w :: ws => w.map Char.toLower ++ (ws.map pyCapitalize).flatten

def toCamelCase (s : String) : String := (toCamelCaseL s.data).asString

def sanitizeFilenameL (s : List Char) : List Char :=
  (s.filter isCamelKept).map (fun c => if c == ' ' then '_' else c)

/-- The text the version `QLineEdit` holds for version number `v`. -/
def versionText (v : Nat) : List Char := (toString v).data

def updateFileNameL (ctx ty nm src ver : List Char) : List Char :=
  sanitizeFilenameL
    (toCamelCaseL ctx ++ '_' :: toCamelCaseL ty ++ '_' :: toCamelCaseL nm ++
      '_' :: toCamelCaseL src ++ '_' :: 'v' :: zfill2 ver)

/-- `WriteSnipUI.update_file_name` as a function of the five input fields. -/
def updateFileName (ctx ty nm src : String) (ver : Nat) : String :=
  (updateFileNameL ctx.data ty.data nm.data src.data (versionText ver)).asString

/-! ## The formatter claimed by the specification (spec section 4.1)

For comparison with `updateFileName` only: Context upper-cased, the three
middle fields lower-camel-cased with every non-alphanumeric character
stripped, version zero-padded two-digit with a `v` prefix, underscore
joined. -/

/-- Lower-camel-case with all non-alphanumerics stripped, spaces acting as
word boundaries — the casing rule as the specification words it. -/
def specCamelStrip (s : List Char) : List Char :=
  match pyWords (s.filter (fun c => isAlnumA c || c == ' ')) with
  | [] => []
  | w :: ws => w.map Char.toLower ++ (ws.map pyCapitalize).flatten

def specFormatIdent (ctx ty nm src : String) (ver : Nat) : String :=
  (ctx.data.map Char.toUpper ++ '_' :: specCamelStrip ty.data ++
    '_' :: specCamelStrip nm.data ++ '_' :: specCamelStrip src.data ++
    '_' :: 'v' :: zfill2 (versionText ver)).asString

/-! ## Data model: index records, the master.json file, dialogs -/

/-- One entry of the per-user `master.json` array (spec section 6); the
fields not touched by rename/delete are summarised in `summary`.  An empty
`flipbook`/`snap` string means the preview is absent. -/
structure SnipRecord where
  fileName : String
  flipbook : String
  snap : String
  summary : String
  deriving Repr, DecidableEq

/-- The on-disk state of a `master.json` file.  `malformed` covers both a
file `json.load` cannot parse and parseable JSON that is not a list (the
`isinstance` check at read_snip_ui_bk02.py:2378 raises `ValueError`). -/
inductive MasterFile where
  | missing
  | malformed
  | good (records : List SnipRecord)
  deriving Repr, DecidableEq

def recordsOf : MasterFile → List SnipRecord
  | .good rs => rs
  | _ => []

/-- `MyShelfToolUI.load_json_data` (read_snip_ui_bk02.py:2372-2383): any
exception — missing file, parse error, not-a-list — is caught by the
`except Exception` handler, which logs a diagnostic and leaves
`json_data = []`.  Returns the resulting record list and whether the
diagnostic was logged. -/
def loadJsonData : MasterFile → List SnipRecord × Bool
  | .good rs => (rs, false)
  | _ => ([], true)

/-- `MyShelfToolUI.read_json_data` (read_snip_ui_bk02.py:2385-2386):
first record whose `File Name` equals the identifier. -/
def findRec : List SnipRecord → String → Option SnipRecord
  | [], _ => none
  | r :: rs, n => if r.fileName == n then some r else findRec rs n

/-- The master.json rename loop of `update_item_name`
(read_snip_ui_bk02.py:3680-3687): the first entry whose `File Name`
equals the old name has its name replaced and the old name substituted
inside its `Flipbook` and `Snap` references, then the loop breaks. -/
def renameEntries : List SnipRecord → String → String → List SnipRecord
  | [], _, _ => []
  | r :: rs, old, new =>
    if r.fileName == old then
      { r with fileName := new,
               flipbook := r.flipbook.replace old new,
               snap := r.snap.replace old new } :: rs
    else r :: renameEntries rs old new

/-- The dialogs the UI can report for one operation, in the order shown.
The constructors through `deletionFailed` are the dialog boxes the source
actually raises; `nameCollision` is the error the specification taxonomy
(section 7) prescribes for a rename onto an existing identifier and is
included so that its absence from the outputs can be stated. -/
inductive Dialog where
  | invalidNameFormat
  | updateFailed
  | renameFailed
  | flipbookUpdateFailed
  | snapshotUpdateFailed
  | jsonUpdateFailed
  | nameUpdated
  | nameCollision
  | fileDeleted
  | deletionCancelled
  | deletionFailed
  deriving Repr, DecidableEq

/-! ## Filesystem and UI state -/

/-- One image of a flipbook sequence: the file is named
`<stemPrefix>.<frameNo>.png` inside its directory; `content` stands for
the image bytes. -/
structure FlipFrame where
  stemPrefix : String
  frameNo : Nat
  content : Nat
  deriving Repr, DecidableEq

/-- The per-user artifact locations (spec section 6): snip files keyed by
stem, flipbook directories keyed by identifier holding frame sequences,
snapshot images keyed by identifier, and the master.json index. -/
structure SnipsFs where
  snipFiles : List (String × Nat)
  flipbookDirs : List (String × List FlipFrame)
  snapshots : List (String × Nat)
  master : MasterFile
  deriving Repr, DecidableEq

/-- The mutable state of `MyShelfToolUI` relevant to the claims: the
filesystem, the in-memory `json_data` list, and the two caches. -/
structure UiState where
  fs : SnipsFs
  jsonData : List SnipRecord
  previewCache : List (String × Nat)
  jsonCache : List (String × Nat)
  deriving Repr, DecidableEq

/-- Injected filesystem failures: each flag makes the first filesystem
operation of the corresponding block of `update_item_name` raise. -/
structure IoOracle where
  snipRenameFails : Bool
  flipbookFails : Bool
  snapshotFails : Bool
  masterJsonFails : Bool
  deriving Repr, DecidableEq

def IoOracle.noFail : IoOracle := ⟨false, false, false, false⟩

/-- Update the binding of an existing key in place. -/
def setA {α : Type} : List (String × α) → String → α → List (String × α)
  | [], _, _ => []
  | p :: l, k, v => if p.1 == k then (k, v) :: l else p :: setA l k v

/-- `MyShelfToolUI.refresh_ui` (read_snip_ui_bk02.py:2665-2682): reloads
`json_data` from master.json and rebuilds the widgets; unlike the older
backup variant it does not clear `preview_cache` or `json_cache`.  The
preview reload it may schedule for the reselected item is asynchronous
and outside the completed operation. -/
def refreshUi (s : UiState) : UiState :=
  { s with jsonData := (loadJsonData s.fs.master).1 }

/-- The frame renaming loop (read_snip_ui_bk02.py:3651-3654): every frame
file globbed as `<old>.*` is renamed to `<new>.<frame><suffix>` inside the
directory. -/
def renameFramesTo (frames : List FlipFrame) (old new : String) :
    List FlipFrame :=
  frames.map (fun f =>
    if f.stemPrefix == old then { f with stemPrefix := new } else f)

/-! ## MyShelfToolUI.update_item_name (read_snip_ui_bk02.py:3630-3721)

The method body is one outer `try`; the snip-file rename (3637-3643,
raising `FileNotFoundError` when the old file is missing) aborts the whole
operation through the outer handler at 3716-3721, which shows the Rename
Failed dialog and reverts the edited tree cell.  The flipbook (3648-3661),
snapshot (3666-3672) and master.json (3676-3695) blocks each have their
own `try`, so their failures show a dialog and fall through.  Nothing in
the method checks whether the new name is already taken, and the preview
cache is never touched — only `json_cache.pop(old_full_name, None)` at
3711 runs before the success dialog and `refresh_ui`. -/

/-- The flipbook block (read_snip_ui_bk02.py:3645-3661): when the old
directory exists, its frames are renamed first, then the directory is
renamed.  POSIX `os.rename` onto an existing empty directory replaces it;
onto a non-empty one it raises, which the handler at 3659-3661 turns into
a dialog, leaving the renamed frames inside the old directory.  An
injected failure makes the first operation of the block raise instead. -/
def flipbookRenameStep (fails : Bool) (dirs : List (String × List FlipFrame))
    (old new : String) : List (String × List FlipFrame) × List Dialog :=
  match lookupA dirs old with
  | none => (dirs, [])
  | some frames =>
    if fails then (dirs, [Dialog.flipbookUpdateFailed])
    else
      let frames' := renameFramesTo frames old new
      match lookupA dirs new with
      | some l =>
        if l.isEmpty then (moveA dirs old new frames', [])
        else (setA dirs old frames', [Dialog.flipbookUpdateFailed])
      | none => (moveA dirs old new frames', [])

/-- The snapshot block (read_snip_ui_bk02.py:3663-3672). -/
def snapshotRenameStep (fails : Bool) (snaps : List (String × Nat))
    (old new : String) : List (String × Nat) × List Dialog :=
  match lookupA snaps old with
  | none => (snaps, [])
  | some im =>
    if fails then (snaps, [Dialog.snapshotUpdateFailed])
    else (moveA snaps old new im, [])

/-- The master.json block (read_snip_ui_bk02.py:3674-3695): reading a
missing or malformed file raises inside this try and only shows the
dialog; otherwise the renamed array is written back. -/
def masterRenameStep (fails : Bool) (m : MasterFile) (old new : String) :
    MasterFile × List Dialog :=
  if fails then (m, [Dialog.jsonUpdateFailed])
  else
    match m with
    | .good rs => (MasterFile.good (renameEntries rs old new), [])
    | m => (m, [Dialog.jsonUpdateFailed])

def updateItemName (oracle : IoOracle) (s : UiState) (old new : String) :
    UiState × List Dialog :=
  match lookupA s.fs.snipFiles old with
  | none => (s, [.renameFailed])
  | some content =>
    if oracle.snipRenameFails then (s, [.renameFailed])
    else
      let fb := flipbookRenameStep oracle.flipbookFails s.fs.flipbookDirs
        old new
      let sn := snapshotRenameStep oracle.snapshotFails s.fs.snapshots old new
      let ms := masterRenameStep oracle.masterJsonFails s.fs.master old new
      let s1 : UiState :=
        { fs := { snipFiles := moveA s.fs.snipFiles old new content
                  flipbookDirs := fb.1
                  snapshots := sn.1
                  master := ms.1 }
          jsonData := renameEntries s.jsonData old new
          previewCache := s.previewCache
          jsonCache := eraseA s.jsonCache old }
      (refreshUi s1, fb.2 ++ sn.2 ++ ms.2 ++ [Dialog.nameUpdated])

/-! ## MyShelfToolUI.on_item_changed (read_snip_ui_bk02.py:3590-3628) -/

/-- Validation and per-column formatting before a rename.  The stored name
is split on underscores and rejected unless it has exactly five fields;
the edited cell text goes through `format_name`, whose `IndexError` (empty
word list) is caught by the handler at 3626 as a generic Update Failed
dialog.  Column 0 (Context) is upper-cased, column 4 (Version) is
lower-cased, columns 1-3 keep the camel-cased value, and any other column
leaves the parts unchanged so the rename is skipped as a no-op. -/
def onItemChanged (oracle : IoOracle) (s : UiState) (oldFullName : String)
    (column : Nat) (newText : String) : UiState × List Dialog :=
  let parts := pySplitOn '_' oldFullName.data
  if parts.length ≠ 5 then (s, [.invalidNameFormat])
  else
    match formatNameL newText.data with
    | none => (s, [.updateFailed])
    | some fv =>
      let newParts :=
        match column with
        | 0 => parts.set 0 (fv.map Char.toUpper)
        | 1 => parts.set 1 fv
        | 2 => parts.set 2 fv
        | 3 => parts.set 3 fv
        | 4 => parts.set 4 (fv.map Char.toLower)
        | _ => parts
      let newFullName := (List.intercalate ['_'] newParts).asString
      if newFullName ≠ oldFullName then
        updateItemName oracle s oldFullName newFullName
      else (s, [])

/-! ## MyShelfToolUI.delete_selected_file (read_snip_ui_bk02.py:2517-2597)

Everything runs inside one `try` once the user confirms: the snip file,
flipbook directory and snapshot are each removed only `if ... exists()`
(absence is merely logged, 2536-2556), the master.json array is filtered
in place when the file exists (2558-2571), both caches drop the stem
(2582-2583), `json_data` is filtered (2586), and `refresh_ui` runs.  A
malformed master.json makes `json.load` at 2562 raise after the files
were already removed; the handler at 2593 reports Deletion Failed with the
caches and `json_data` untouched. -/

def deleteSelectedFile (s : UiState) (stem : String) (confirm : Bool) :
    UiState × List Dialog :=
  if !confirm then (s, [.deletionCancelled])
  else
    let snip1 := eraseA s.fs.snipFiles stem
    let fb1 := eraseA s.fs.flipbookDirs stem
    let snap1 := eraseA s.fs.snapshots stem
    match s.fs.master with
    | .malformed =>
      let fs1 : SnipsFs :=
        { snipFiles := snip1, flipbookDirs := fb1, snapshots := snap1,
          master := MasterFile.malformed }
      ({ s with fs := fs1 }, [.deletionFailed])
    | .missing =>
      let s1 : UiState :=
        { fs := { snipFiles := snip1, flipbookDirs := fb1, snapshots := snap1,
                  master := MasterFile.missing }
          jsonData := s.jsonData.filter (fun r => !(r.fileName == stem))
          previewCache := eraseA s.previewCache stem
          jsonCache := eraseA s.jsonCache stem }
      (refreshUi s1, [.fileDeleted])
    | .good rs =>
      let rs' := rs.filter (fun r => !(r.fileName == stem))
      let s1 : UiState :=
        { fs := { snipFiles := snip1, flipbookDirs := fb1, snapshots := snap1,
                  master := MasterFile.good rs' }
          jsonData := s.jsonData.filter (fun r => !(r.fileName == stem))
          previewCache := eraseA s.previewCache stem
          jsonCache := eraseA s.jsonCache stem }
      (refreshUi s1, [.fileDeleted])

/-! ## Writing master.json

Both index writers — `WriteSnipUI.update_master_json`
(write_snip_ui.py:955-960) and the master.json updates in
`delete_selected_file` / `update_item_name` — use
`with open(path, 'w') as f: json.dump(data, f, indent=4)`:
the `open` with mode `w` truncates the file in place, then the serializer
streams the new text into it.  `saveMasterTrace` lists the file contents
observable during such a save, as character lists. -/

def serializeRecord (r : SnipRecord) : String :=
  "\x7b\"File Name\": \"" ++ r.fileName ++ "\", \"Flipbook\": \"" ++
    r.flipbook ++ "\", \"Snap\": \"" ++ r.snap ++ "\", \"Summary\": \"" ++
    r.summary ++ "\"\x7d"

def serializeRecords (rs : List SnipRecord) : String :=
  "[" ++ String.intercalate ", " (rs.map serializeRecord) ++ "]"

/-- Contents of master.json at the observation points of an in-place save:
the prior content, the empty content right after the truncating `open`,
and every prefix of the new serialization as it is written. -/
def saveMasterTrace (old : List Char) (rs : List SnipRecord) :
    List (List Char) :=
  old :: (List.range ((serializeRecords rs).data.length + 1)).map
    (fun k => (serializeRecords rs).data.take k)

/-! ## The asynchronous preview loader

`update_preview` (read_snip_ui_bk02.py:2139-2163) wraps `_update_preview`
in a new asyncio task and overwrites `self.current_task` with it; the
previously stored task is not cancelled.  `clear_preview` (2393-2397) is
the only place that cancels the current task.  When a load coroutine
(`load_preview_assets_async`, 2289-2329) runs to completion it stores its
result in `preview_cache` unconditionally at 2320; a cancelled asyncio
task instead raises `CancelledError` at an await point before the write
and so skips it. -/

structure LoadTask where
  id : Nat
  ident : String
  cancelled : Bool
  done : Bool
  deriving Repr, DecidableEq

structure LoaderState where
  tasks : List LoadTask
  currentTask : Option Nat
  previewCache : List (String × Nat)
  nextId : Nat
  deriving Repr, DecidableEq

/-- `update_preview` for a newly selected identifier: create the load
task and store its handle; the superseded handle is dropped, not
cancelled. -/
def updatePreview (s : LoaderState) (ident : String) : LoaderState :=
  { s with tasks := s.tasks ++ [⟨s.nextId, ident, false, false⟩],
           currentTask := some s.nextId,
           nextId := s.nextId + 1 }

/-- `clear_preview`: cancel the current task if it has not finished. -/
def clearPreview (s : LoaderState) : LoaderState :=
  match s.currentTask with
  | none => s
  | some tid =>
    { s with tasks := s.tasks.map (fun t =>
        if t.id == tid && !t.done then { t with cancelled := true } else t) }

/-- Completion of the load coroutine of task `tid` with decoded result
`r`: unless asyncio cancellation pre-empted the coroutine, the result is
written into the preview cache with no check of whether the request is
still current. -/
def completeLoad (s : LoaderState) (tid : Nat) (r : Nat) : LoaderState :=
  match s.tasks.find? (fun t => t.id == tid) with
  | none => s
  | some t =>
    let tasks' := s.tasks.map (fun t' =>
      if t'.id == tid then { t' with done := true } else t')
    if t.cancelled then { s with tasks := tasks' }
    else
      { s with tasks := tasks',
               previewCache := (t.ident, r) :: eraseA s.previewCache t.ident }

/-! ## Concrete example states used as witnesses and counterexamples -/

/-- The character class of camel-cased output: letters, digits, hyphen or
dot.  Everything else — in particular every other punctuation character,
spaces and underscores — cannot occur in a `toCamelCase` result. -/
def isCamelOut (c : Char) : Bool := c.isAlphanum || c == '-' || c == '.'

def exA : String := "SOP_flip_basicSetup_userA_v01"
def exB : String := "SOP_flip_basicSetup_userA_v02"

def exRecA : SnipRecord :=
  { fileName := exA
    flipbook := "/preview/flipbook/" ++ exA ++ "/" ++ exA ++ ".$F4.png"
    snap := "/preview/snapshot/" ++ exA ++ ".png"
    summary := "demo" }

def exRecB : SnipRecord :=
  { fileName := exB, flipbook := "", snap := "", summary := "other" }

/-- A library holding the single snip `exA` with flipbook, snapshot and a
cached preview. -/
def exState : UiState :=
  { fs := { snipFiles := [(exA, 1)]
            flipbookDirs := [(exA, [⟨exA, 1, 10⟩, ⟨exA, 2, 11⟩])]
            snapshots := [(exA, 5)]
            master := .good [exRecA] }
    jsonData := [exRecA]
    previewCache := [(exA, 7)]
    jsonCache := [(exA, 3)] }

/-- A library holding both `exA` and `exB` as snip files and records. -/
def exStateCollide : UiState :=
  { fs := { snipFiles := [(exA, 1), (exB, 2)]
            flipbookDirs := []
            snapshots := []
            master := .good [exRecA, exRecB] }
    jsonData := [exRecA, exRecB]
    previewCache := []
    jsonCache := [] }

/-- A library whose only snip has no flipbook and no snapshot. -/
def exStateBare : UiState :=
  { fs := { snipFiles := [(exA, 1)]
            flipbookDirs := []
            snapshots := []
            master := .good [exRecB, exRecA] }
    jsonData := [exRecB, exRecA]
    previewCache := [(exA, 9)]
    jsonCache := [] }

def loaderInit : LoaderState :=
  { tasks := [], currentTask := none, previewCache := [], nextId := 0 }

/-! # Theorems

## Association-list facts -/

theorem lookupA_eraseA_self {α : Type} (l : List (String × α)) (k : String) :
    lookupA (eraseA l k) k = none := by
  induction l with
  | nil => rfl
  | cons p l ih =>
    by_cases h : p.1 = k <;> simp [lookupA, eraseA, h, ih]

theorem lookupA_eraseA_ne {α : Type} (l : List (String × α)) (k k' : String)
    (h : k' ≠ k) : lookupA (eraseA l k) k' = lookupA l k' := by
  induction l with
  | nil => rfl
  | cons p l ih =>
    by_cases hp : p.1 = k
    · have hpk : ¬k = k' := fun e => h e.symm
      simp [lookupA, eraseA, hp, hpk, ih]
    · by_cases hq : p.1 = k' <;> simp [lookupA, eraseA, hp, hq, h, ih]

theorem lookupA_append {α : Type} (l₁ l₂ : List (String × α)) (k : String) :
    lookupA (l₁ ++ l₂) k = (lookupA l₁ k).orElse (fun _ => lookupA l₂ k) := by
  induction l₁ with
  | nil => simp [lookupA]
  | cons p l ih =>
    by_cases hp : p.1 = k <;> simp [lookupA, hp, ih]

theorem lookupA_moveA_new {α : Type} (l : List (String × α)) (old new : String)
    (v : α) : lookupA (moveA l old new v) new = some v := by
  unfold moveA
  rw [lookupA_append, lookupA_eraseA_self]
  simp [lookupA]

theorem lookupA_moveA_old {α : Type} (l : List (String × α)) (old new : String)
    (v : α) (h : old ≠ new) : lookupA (moveA l old new v) old = none := by
  unfold moveA
  rw [lookupA_append, lookupA_eraseA_ne _ new old h, lookupA_eraseA_self]
  simp only [Option.orElse_none, Option.none_orElse, lookupA]
  simp [Ne.symm h]

/-! ## ASCII character facts -/

theorem charToNat_ofNat_small (n : Nat) (h : n < 55296) :
    (Char.ofNat n).toNat = n := by
  have hv : n.isValidChar := Or.inl (by omega)
  rw [Char.ofNat, dif_pos hv]
  simp [Char.ofNatAux, Char.toNat, UInt32.toNat, BitVec.toNat_ofNatLt]

theorem charEq_iff_toNat (c d : Char) : c = d ↔ c.toNat = d.toNat := by
  constructor
  · rintro rfl; rfl
  · intro h
    calc c = Char.ofNat c.toNat := (Char.ofNat_toNat c).symm
    _ = Char.ofNat d.toNat := by rw [h]
    _ = d := Char.ofNat_toNat d

theorem isUpper_iff (c : Char) :
    c.isUpper = true ↔ 65 ≤ c.toNat ∧ c.toNat ≤ 90 := by
  simp [Char.isUpper, Char.toNat, UInt32.le_def, BitVec.le_def, UInt32.toNat]

theorem isLower_iff (c : Char) :
    c.isLower = true ↔ 97 ≤ c.toNat ∧ c.toNat ≤ 122 := by
  simp [Char.isLower, Char.toNat, UInt32.le_def, BitVec.le_def, UInt32.toNat]

theorem isDigit_iff (c : Char) :
    c.isDigit = true ↔ 48 ≤ c.toNat ∧ c.toNat ≤ 57 := by
  simp [Char.isDigit, Char.toNat, UInt32.le_def, BitVec.le_def, UInt32.toNat]

theorem isAlphanum_iff (c : Char) :
    c.isAlphanum = true ↔
      (48 ≤ c.toNat ∧ c.toNat ≤ 57) ∨ (65 ≤ c.toNat ∧ c.toNat ≤ 90) ∨
        (97 ≤ c.toNat ∧ c.toNat ≤ 122) := by
  simp [Char.isAlphanum, Char.isAlpha, isUpper_iff, isLower_iff, isDigit_iff]
  tauto

theorem isWhitespace_iff (c : Char) :
    c.isWhitespace = true ↔
      c.toNat = 32 ∨ c.toNat = 9 ∨ c.toNat = 13 ∨ c.toNat = 10 := by
  simp [Char.isWhitespace, charEq_iff_toNat]
  norm_num [Char.toNat]
  tauto

theorem toLower_toNat (c : Char) :
    c.toLower.toNat =
      if 65 ≤ c.toNat ∧ c.toNat ≤ 90 then c.toNat + 32 else c.toNat := by
  unfold Char.toLower
  by_cases h : 65 ≤ c.toNat ∧ c.toNat ≤ 90
  · rw [if_pos ⟨h.1, h.2⟩, if_pos h]
    exact charToNat_ofNat_small _ (by omega)
  · rw [if_neg ?_, if_neg h]
    intro hc
    exact h ⟨hc.1, hc.2⟩

theorem toUpper_toNat (c : Char) :
    c.toUpper.toNat =
      if 97 ≤ c.toNat ∧ c.toNat ≤ 122 then c.toNat - 32 else c.toNat := by
  unfold Char.toUpper
  by_cases h : 97 ≤ c.toNat ∧ c.toNat ≤ 122
  · rw [if_pos ⟨h.1, h.2⟩, if_pos h]
    exact charToNat_ofNat_small _ (by omega)
  · rw [if_neg ?_, if_neg h]
    intro hc
    exact h ⟨hc.1, hc.2⟩

theorem isCamelOut_iff (c : Char) :
    isCamelOut c = true ↔
      (48 ≤ c.toNat ∧ c.toNat ≤ 57) ∨ (65 ≤ c.toNat ∧ c.toNat ≤ 90) ∨
        (97 ≤ c.toNat ∧ c.toNat ≤ 122) ∨ c.toNat = 45 ∨ c.toNat = 46 := by
  simp [isCamelOut, isAlphanum_iff, charEq_iff_toNat]
  norm_num [Char.toNat]
  tauto

theorem isCamelKept_iff (c : Char) :
    isCamelKept c = true ↔
      (48 ≤ c.toNat ∧ c.toNat ≤ 57) ∨ (65 ≤ c.toNat ∧ c.toNat ≤ 90) ∨
        (97 ≤ c.toNat ∧ c.toNat ≤ 122) ∨ c.toNat = 95 ∨ c.toNat = 45 ∨
        c.toNat = 46 ∨ c.toNat = 32 := by
  simp [isCamelKept, isWordCharA, isAlphanum_iff, charEq_iff_toNat]
  norm_num [Char.toNat]
  tauto

theorem isCamelOut_toLower (c : Char) (h : isCamelOut c = true) :
    isCamelOut c.toLower = true := by
  rw [isCamelOut_iff] at h ⊢
  rw [toLower_toNat]
  split <;> omega

theorem isCamelOut_toUpper (c : Char) (h : isCamelOut c = true) :
    isCamelOut c.toUpper = true := by
  rw [isCamelOut_iff] at h ⊢
  rw [toUpper_toNat]
  split <;> omega

theorem isCamelKept_of_isCamelOut (c : Char) (h : isCamelOut c = true) :
    isCamelKept c = true ∧ ¬c = ' ' := by
  rw [isCamelOut_iff] at h
  rw [isCamelKept_iff]
  constructor
  · omega
  · rw [charEq_iff_toNat]
    have hsp : (' ').toNat = 32 := rfl
    rw [hsp]
    omega

theorem isWhitespace_of_not_isAlphanum (c : Char)
    (hmem : isAlnumA c = true ∨ c = ' ') (h : c.isAlphanum = false) :
    c.isWhitespace = true := by
  rcases hmem with hm | hm
  · simp [isAlnumA] at hm
    rw [hm] at h
    cases h
  · rw [hm]
    decide

theorem not_isWhitespace_of_isAlphanum (c : Char) (h : c.isAlphanum = true) :
    c.isWhitespace = false := by
  rw [isAlphanum_iff] at h
  by_contra hw
  rw [Bool.not_eq_false, isWhitespace_iff] at hw
  omega

/-! ## Splitting into words -/

theorem pyWordsAux_eq_nil (l : List Char) :
    ∀ cur, (pyWordsAux cur l = [] ↔
      cur = [] ∧ ∀ c ∈ l, c.isWhitespace = true) := by
  induction l with
  | nil =>
    intro cur
    cases cur with
    | nil => simp [pyWordsAux]
    | cons a as => simp [pyWordsAux]
  | cons c cs ih =>
    intro cur
    by_cases hw : c.isWhitespace
    · cases cur with
      | nil => simp [pyWordsAux, hw, ih]
      | cons a as => simp [pyWordsAux, hw]
    · simp only [pyWordsAux, if_neg hw, ih (c :: cur)]
      simp [hw]

theorem pyWords_eq_nil (l : List Char) :
    pyWords l = [] ↔ ∀ c ∈ l, c.isWhitespace = true := by
  rw [pyWords, pyWordsAux_eq_nil]
  simp

theorem formatNameL_eq_none_iff (s : List Char) :
    formatNameL s = none ↔ ∀ c ∈ s, c.isAlphanum = false := by
  unfold formatNameL
  cases h : pyWords (s.filter (fun c => isAlnumA c || c == ' ')) with
  | nil =>
    simp only [h]
    constructor
    · intro _ c hc
      by_contra halnum
      rw [Bool.not_eq_false] at halnum
      have hcmem : c ∈ s.filter (fun c => isAlnumA c || c == ' ') := by
        rw [List.mem_filter]
        exact ⟨hc, by simp [isAlnumA, halnum]⟩
      have hws := (pyWords_eq_nil _).mp h c hcmem
      rw [not_isWhitespace_of_isAlphanum c halnum] at hws
      cases hws
    · intro _
      trivial
  | cons w ws =>
    simp only [h]
    constructor
    · intro hnone
      cases hnone
    · intro hall
      exfalso
      have hws : ∀ c ∈ s.filter (fun c => isAlnumA c || c == ' '),
          c.isWhitespace = true := by
        intro c hc
        rw [List.mem_filter] at hc
        refine isWhitespace_of_not_isAlphanum c ?_ (hall c hc.1)
        rcases (Bool.or_eq_true _ _).mp hc.2 with h1 | h1
        · exact Or.inl h1
        · exact Or.inr (by simpa using h1)
      rw [(pyWords_eq_nil _).mpr hws] at h
      cases h

/-! ## Character classes of camel-cased output -/

theorem mem_pySplitOn (sep : Char) :
    ∀ (t w : List Char), w ∈ pySplitOn sep t →
      ∀ c ∈ w, c ∈ t ∧ ¬c = sep := by
  intro t
  induction t with
  | nil =>
    intro w hw c hc
    simp [pySplitOn] at hw
    subst hw
    cases hc
  | cons d cs ih =>
    intro w hw c hc
    by_cases hd : d = sep
    · rw [pySplitOn, if_pos (by simp [hd])] at hw
      rcases List.mem_cons.mp hw with rfl | hw
      · cases hc
      · have := ih w hw c hc
        exact ⟨List.mem_cons_of_mem _ this.1, this.2⟩
    · rw [pySplitOn, if_neg (by simp [hd])] at hw
      cases hrec : pySplitOn sep cs with
      | nil =>
        rw [hrec] at hw
        rcases List.mem_cons.mp hw with rfl | hw
        · rcases List.mem_cons.mp hc with rfl | hc
          · exact ⟨List.mem_cons_self _ _, hd⟩
          · cases hc
        · cases hw
      | cons w0 ws0 =>
        rw [hrec] at hw
        rcases List.mem_cons.mp hw with rfl | hw
        · rcases List.mem_cons.mp hc with rfl | hc
          · exact ⟨List.mem_cons_self _ _, hd⟩
          · have hw0 : w0 ∈ pySplitOn sep cs := by
              rw [hrec]; exact List.mem_cons_self _ _
            have := ih w0 hw0 c hc
            exact ⟨List.mem_cons_of_mem _ this.1, this.2⟩
        · have hwmem : w ∈ pySplitOn sep cs := by
            rw [hrec]; exact List.mem_cons_of_mem _ hw
          have := ih w hwmem c hc
          exact ⟨List.mem_cons_of_mem _ this.1, this.2⟩

theorem mem_pyCapitalize (w : List Char) (c : Char) (hc : c ∈ pyCapitalize w) :
    ∃ c₀ ∈ w, c = c₀.toUpper ∨ c = c₀.toLower := by
  cases w with
  | nil => cases hc
  | cons a as =>
    rcases List.mem_cons.mp hc with rfl | h
    · exact ⟨a, List.mem_cons_self _ _, Or.inl rfl⟩
    · rcases List.mem_map.mp h with ⟨c₀, hm, he⟩
      exact ⟨c₀, List.mem_cons_of_mem _ hm, Or.inr he.symm⟩

theorem mem_toCamelCaseL (s : List Char) (c : Char) (hc : c ∈ toCamelCaseL s) :
    isCamelOut c = true := by
  rw [toCamelCaseL] at hc
  set t := (s.filter isCamelKept).map (fun c => if c == ' ' then '_' else c)
    with ht
  have htc : ∀ x ∈ t, ¬x = '_' → isCamelOut x = true := by
    intro x hx hne
    rw [ht] at hx
    rcases List.mem_map.mp hx with ⟨y, hy, he⟩
    rw [List.mem_filter] at hy
    by_cases hsp : y = ' '
    · rw [← he, if_pos (by simp [hsp])] at hne
      cases hne rfl
    · rw [if_neg (by simp [hsp])] at he
      subst he
      rw [isCamelOut_iff]
      have hk := (isCamelKept_iff y).mp hy.2
      have h32 : ¬y.toNat = 32 := by
        rw [charEq_iff_toNat] at hsp
        simpa using hsp
      have h95 : ¬y.toNat = 95 := by
        rw [charEq_iff_toNat] at hne
        simpa using hne
      omega
  cases hsplit : pySplitOn '_' t with
  | nil =>
    rw [hsplit] at hc
    cases hc
  | cons w ws =>
    rw [hsplit] at hc
    rcases List.mem_append.mp hc with h | h
    · rcases List.mem_map.mp h with ⟨c₀, hm, he⟩
      have hw : w ∈ pySplitOn '_' t := by
        rw [hsplit]; exact List.mem_cons_self _ _
      have hbase := mem_pySplitOn '_' t w hw c₀ hm
      rw [← he]
      exact isCamelOut_toLower _ (htc _ hbase.1 hbase.2)
    · rcases List.mem_flatten.mp h with ⟨piece, hpiece, hcp⟩
      rcases List.mem_map.mp hpiece with ⟨w', hw', hpe⟩
      rcases mem_pyCapitalize w' c (hpe ▸ hcp) with ⟨c₀, hm, hud⟩
      have hwmem : w' ∈ pySplitOn '_' t := by
        rw [hsplit]; exact List.mem_cons_of_mem _ hw'
      have hbase := mem_pySplitOn '_' t w' hwmem c₀ hm
      have hout := htc _ hbase.1 hbase.2
      rcases hud with rfl | rfl
      · exact isCamelOut_toUpper _ hout
      · exact isCamelOut_toLower _ hout

theorem sanitizeFilenameL_eq_self (s : List Char)
    (h : ∀ c ∈ s, isCamelKept c = true ∧ ¬c = ' ') :
    sanitizeFilenameL s = s := by
  induction s with
  | nil => rfl
  | cons a as ih =>
    have ha := h a (List.mem_cons_self _ _)
    have htail := ih (fun c hc => h c (List.mem_cons_of_mem _ hc))
    rw [sanitizeFilenameL] at htail ⊢
    rw [List.filter_cons, if_pos (by simp [ha.1]), List.map_cons,
      if_neg (by simp [ha.2]), htail]

/-! ## Claim C10 -/

/-- C10: for every input string containing no alphanumeric character (the
empty string included) `format_name` raises an `IndexError` by indexing
the first element of an empty word list — embedded as `formatName`
returning `none` — and it is defined (returns a value) exactly on inputs
holding at least one alphanumeric character. -/
theorem formatName_raises_iff_no_alphanumeric (s : String) :
    formatName s = none ↔ ∀ c ∈ s.data, c.isAlphanum = false := by
  rw [formatName, Option.map_eq_none']
  exact formatNameL_eq_none_iff s.data

/-! ## Claim C4 -/

/-- C4: whenever the stored identifier does not split on underscores into
exactly five fields, `on_item_changed` shows the Invalid Name Format
dialog and returns with the state untouched — the identifier is never
coerced. -/
theorem onItemChanged_rejects_wrong_field_count
    (oracle : IoOracle) (s : UiState) (old newText : String) (col : Nat)
    (h : (pySplitOn '_' old.data).length ≠ 5) :
    onItemChanged oracle s old col newText =
      (s, [Dialog.invalidNameFormat]) := by
  simp [onItemChanged, h]

/-- Witness for C4 at the four-field identifier `SOP_flip_userA_v01`. -/
theorem onItemChanged_rejects_wrong_field_count_witness :
    (pySplitOn '_' ("SOP_flip_userA_v01").data).length ≠ 5 ∧
      onItemChanged IoOracle.noFail exState "SOP_flip_userA_v01" 2 "newName" =
        (exState, [Dialog.invalidNameFormat]) :=
  ⟨by decide,
    onItemChanged_rejects_wrong_field_count IoOracle.noFail exState
      "SOP_flip_userA_v01" "newName" 2 (by decide)⟩

/-! ## Claim C7 -/

/-- C7: loading the index from a missing file yields the empty record
list, loading it from a malformed file (unparseable, or not a JSON list)
also yields the empty list while logging a diagnostic, and a well-formed
file yields its records; in every case `load_json_data` returns instead
of propagating the exception, which its `except Exception` handler has
swallowed. -/
theorem loadJsonData_recovers_from_missing_and_malformed :
    loadJsonData MasterFile.missing = ([], true) ∧
    loadJsonData MasterFile.malformed = ([], true) ∧
    ∀ rs : List SnipRecord, loadJsonData (MasterFile.good rs) = (rs, false) :=
  ⟨rfl, rfl, fun _ => rfl⟩

/-! ## Claim C5 -/

/-- C5: when the rename of the mandatory snip file itself raises, the
outer handler of `update_item_name` reports Rename Failed and the
operation aborts with no further changes: flipbook, snapshot, index and
caches are all exactly as before. -/
theorem updateItemName_aborts_on_snip_io_failure
    (oracle : IoOracle) (s : UiState) (old new : String) (content : Nat)
    (hex : lookupA s.fs.snipFiles old = some content)
    (hf : oracle.snipRenameFails = true) :
    updateItemName oracle s old new = (s, [Dialog.renameFailed]) := by
  simp [updateItemName, hex, hf]

/-- Witness for C5: an injected failure of the snip-file move leaves the
example library untouched. -/
theorem updateItemName_aborts_on_snip_io_failure_witness :
    lookupA exState.fs.snipFiles exA = some 1 ∧
      updateItemName ⟨true, false, false, false⟩ exState exA exB =
        (exState, [Dialog.renameFailed]) :=
  ⟨by decide,
    updateItemName_aborts_on_snip_io_failure ⟨true, false, false, false⟩
      exState exA exB 1 (by decide) rfl⟩

/-! ## Claim C3 -/

/-- C3 counterexample: on the concrete 5-tuple
`("sop", "flip", "a-b", "user", 2)` the formatter of
`WriteSnipUI.update_file_name` neither upper-cases the Context field nor
strips the hyphen from the Name field, so its output differs from the
identifier the claimed field rules (embedded as `specFormatIdent`)
produce. -/
theorem updateFileName_casing_counterexample :
    updateFileName "sop" "flip" "a-b" "user" 2 = "sop_flip_a-b_user_v02" ∧
    specFormatIdent "sop" "flip" "a-b" "user" 2 = "SOP_flip_ab_user_v02" ∧
    updateFileName "sop" "flip" "a-b" "user" 2 ≠
      specFormatIdent "sop" "flip" "a-b" "user" 2 := by
  decide

/-- C3 (amended): formatting a 5-tuple applies one uniform casing rule to
all four text fields — lower-camel-case in which word characters, hyphens
and dots survive while spaces and underscores become word boundaries and
all other characters are stripped; the Context field receives no special
upper-casing — then appends `v` plus the version text zero-padded to two
digits and joins the five results with underscores; the trailing
sanitization pass changes nothing. -/
theorem updateFileName_uniform_camel (ctx ty nm src : String) (ver : Nat)
    (h1 : 1 ≤ ver) (h2 : ver ≤ 10) :
    updateFileName ctx ty nm src ver =
      (toCamelCaseL ctx.data ++ '_' :: toCamelCaseL ty.data ++
        '_' :: toCamelCaseL nm.data ++ '_' :: toCamelCaseL src.data ++
        '_' :: 'v' :: zfill2 (versionText ver)).asString ∧
    (zfill2 (versionText ver)).length = 2 ∧
    ∀ t : List Char, ∀ c ∈ toCamelCaseL t, isCamelOut c = true := by
  refine ⟨?_, ?_, fun t c hc => mem_toCamelCaseL t c hc⟩
  · rw [updateFileName, updateFileNameL]
    congr 1
    apply sanitizeFilenameL_eq_self
    have hall : ∀ x ∈ zfill2 (versionText ver),
        isCamelKept x = true ∧ ¬x = ' ' := by
      interval_cases ver <;> decide
    intro c hc
    have hcam : ∀ u : List Char, c ∈ toCamelCaseL u →
        isCamelKept c = true ∧ ¬c = ' ' :=
      fun u hu => isCamelKept_of_isCamelOut c (mem_toCamelCaseL u c hu)
    simp only [List.mem_append, List.mem_cons, or_assoc] at hc
    rcases hc with h | rfl | h | rfl | h | rfl | h | rfl | rfl | h
    · exact hcam _ h
    · exact ⟨by decide, by decide⟩
    · exact hcam _ h
    · exact ⟨by decide, by decide⟩
    · exact hcam _ h
    · exact ⟨by decide, by decide⟩
    · exact hcam _ h
    · exact ⟨by decide, by decide⟩
    · exact ⟨by decide, by decide⟩
    · exact hall c h
  · interval_cases ver <;> decide

/-- Witness for C3 (amended) at the tuple of the counterexample. -/
theorem updateFileName_uniform_camel_witness :
    updateFileName "sop" "flip" "a-b" "user" 2 =
      (toCamelCaseL "sop".data ++ '_' :: toCamelCaseL "flip".data ++
        '_' :: toCamelCaseL "a-b".data ++ '_' :: toCamelCaseL "user".data ++
        '_' :: 'v' :: zfill2 (versionText 2)).asString :=
  (updateFileName_uniform_camel "sop" "flip" "a-b" "user" 2
    (by decide) (by decide)).1

/-! ## Claim C6 -/

/-- C6 counterexample: saving the empty record list over an index that
previously held one record passes through the truncated state: the empty
content is observable on disk and is neither the old nor the new full
serialization, so the in-place write is not an atomic replace. -/
theorem indexSave_not_atomic_counterexample :
    [] ∈ saveMasterTrace (serializeRecords [exRecB]).data [] ∧
    ([] : List Char) ≠ (serializeRecords [exRecB]).data ∧
    ([] : List Char) ≠ (serializeRecords ([] : List SnipRecord)).data := by
  decide

/-- C6 (amended): every index save serializes the full record list, but
writes it in place: the backing file is first truncated (the empty
content is always observable) and then filled incrementally, every
observable content being the prior content or a prefix of the new
serialization, with the full serialization as the final state — no
temporary file and atomic replace are involved. -/
theorem indexSave_truncates_then_writes_in_place (old : List Char)
    (rs : List SnipRecord) :
    (serializeRecords rs).data ∈ saveMasterTrace old rs ∧
    [] ∈ (saveMasterTrace old rs).tail ∧
    ∀ st ∈ saveMasterTrace old rs,
      st = old ∨ st <+: (serializeRecords rs).data := by
  refine ⟨?_, ?_, ?_⟩
  · rw [saveMasterTrace]
    apply List.mem_cons_of_mem
    apply List.mem_map.mpr
    exact ⟨(serializeRecords rs).data.length,
      by simp [List.mem_range], by simp⟩
  · rw [saveMasterTrace]
    simp only [List.tail_cons]
    apply List.mem_map.mpr
    exact ⟨0, by simp [List.mem_range], by simp⟩
  · intro st hst
    rw [saveMasterTrace] at hst
    rcases List.mem_cons.mp hst with rfl | hst
    · exact Or.inl rfl
    · rcases List.mem_map.mp hst with ⟨k, _, rfl⟩
      exact Or.inr (List.take_prefix _ _)

/-! ## Claim C9 -/

theorem find?_append_of_none {α : Type} (l₁ l₂ : List α) (p : α → Bool)
    (h : l₁.find? p = none) : (l₁ ++ l₂).find? p = l₂.find? p := by
  induction l₁ with
  | nil => rfl
  | cons a l ih =>
    have ha : p a = false := by
      have := List.find?_eq_none.mp h a (List.mem_cons_self _ _)
      simpa using this
    have htail : l.find? p = none :=
      List.find?_eq_none.mpr
        (fun x hx => List.find?_eq_none.mp h x (List.mem_cons_of_mem _ hx))
    rw [List.cons_append, List.find?_cons_of_neg _ (by simp [ha]), ih htail]

/-- C9 counterexample: from an idle loader, request identifier `X`, then
request identifier `Y` before the first load finishes — the stored handle
now belongs to the second task, so task 0 is superseded — and let task 0
complete: its result is written into the preview cache under `X`. -/
theorem asyncLoader_superseded_write_counterexample :
    (updatePreview (updatePreview loaderInit "X") "Y").currentTask ≠
      some 0 ∧
    lookupA (completeLoad (updatePreview (updatePreview loaderInit "X") "Y")
        0 42).previewCache "X" = some 42 := by
  decide

/-- C9 (amended): issuing a preview load for a second identifier neither
cancels the in-flight load — the new task is merely appended and the
stored handle replaced — nor does the completion path consult any
cancellation state: when the superseded, uncancelled load for the first
identifier completes, its result is written into the preview cache under
that identifier.  Only `clear_preview` marks the current task cancelled,
in which case asyncio pre-empts the coroutine before the write. -/
theorem asyncLoader_superseded_write (s : LoaderState) (x y : String)
    (r : Nat) (hfresh : ∀ t ∈ s.tasks, t.id < s.nextId) :
    (updatePreview (updatePreview s x) y).tasks =
      s.tasks ++ [⟨s.nextId, x, false, false⟩,
        ⟨s.nextId + 1, y, false, false⟩] ∧
    (updatePreview (updatePreview s x) y).currentTask =
      some (s.nextId + 1) ∧
    lookupA (completeLoad (updatePreview (updatePreview s x) y)
        s.nextId r).previewCache x = some r := by
  refine ⟨by simp [updatePreview], rfl, ?_⟩
  have hnone : s.tasks.find? (fun t => t.id == s.nextId) = none :=
    List.find?_eq_none.mpr (fun t ht => by
      have := hfresh t ht
      simp
      omega)
  have hfind : ((updatePreview (updatePreview s x) y).tasks.find?
      (fun t => t.id == s.nextId)) =
        some ⟨s.nextId, x, false, false⟩ := by
    simp only [updatePreview, List.append_assoc]
    rw [find?_append_of_none _ _ _ hnone]
    simp
  rw [completeLoad, hfind]
  simp [lookupA]

/-- Witness for C9 (amended) from the idle loader. -/
theorem asyncLoader_superseded_write_witness :
    lookupA (completeLoad (updatePreview (updatePreview loaderInit "A")
        "B") loaderInit.nextId 7).previewCache "A" = some 7 :=
  (asyncLoader_superseded_write loaderInit "A" "B" 7
    (fun t ht => by cases ht)).2.2

/-! ## Claim C8 -/

theorem eraseA_idem {α : Type} (l : List (String × α)) (k : String) :
    eraseA (eraseA l k) k = eraseA l k := by
  induction l with
  | nil => rfl
  | cons p l ih =>
    by_cases h : p.1 = k <;> simp [eraseA, h, ih]

theorem filter_idem {α : Type} (l : List α) (p : α → Bool) :
    (l.filter p).filter p = l.filter p := by
  induction l with
  | nil => rfl
  | cons a l ih =>
    by_cases h : p a <;> simp [List.filter_cons, h, ih]

theorem findRec_filter_self (rs : List SnipRecord) (stem : String) :
    findRec (rs.filter (fun r => !(r.fileName == stem))) stem = none := by
  induction rs with
  | nil => rfl
  | cons r rs ih =>
    by_cases h : r.fileName = stem <;>
      simp [List.filter_cons, findRec, h, ih]

/-- C8: once confirmed, deleting a snip succeeds — reporting the File
Deleted dialog — for every starting state whose index parses, however
many of its filesystem artifacts still exist (each removal is guarded by
an existence check, absence being merely logged): the index entry is
gone from the saved index and from memory, the preview cache no longer
holds the identifier, and running the same deletion a second time leaves
the state of the first run unchanged while reporting the same success. -/
theorem delete_succeeds_on_partial_state_and_is_idempotent
    (s : UiState) (stem : String) (rs : List SnipRecord)
    (h : s.fs.master = MasterFile.good rs) :
    (deleteSelectedFile s stem true).2 = [Dialog.fileDeleted] ∧
    findRec (recordsOf (deleteSelectedFile s stem true).1.fs.master)
      stem = none ∧
    findRec (deleteSelectedFile s stem true).1.jsonData stem = none ∧
    lookupA (deleteSelectedFile s stem true).1.previewCache stem = none ∧
    lookupA (deleteSelectedFile s stem true).1.fs.snipFiles stem = none ∧
    deleteSelectedFile (deleteSelectedFile s stem true).1 stem true =
      ((deleteSelectedFile s stem true).1, [Dialog.fileDeleted]) := by
  refine ⟨?_, ?_, ?_, ?_, ?_, ?_⟩ <;>
    simp [deleteSelectedFile, h, refreshUi, loadJsonData, recordsOf,
      findRec_filter_self, lookupA_eraseA_self, eraseA_idem, filter_idem]

/-- Witness for C8 on a library whose snip has no flipbook and no
snapshot: the second deletion reproduces the state of the first. -/
theorem delete_succeeds_on_partial_state_witness :
    deleteSelectedFile (deleteSelectedFile exStateBare exA true).1 exA true =
      ((deleteSelectedFile exStateBare exA true).1, [Dialog.fileDeleted]) :=
  (delete_succeeds_on_partial_state_and_is_idempotent exStateBare exA
    [exRecB, exRecA] rfl).2.2.2.2.2

/-! ## Claim C2 -/

/-- Renaming the first record named `a` to `b` adds one to the number of
records named `b` whenever some record named `a` exists. -/
theorem count_renameEntries_target (rs : List SnipRecord) (a b : String)
    (ha : (findRec rs a).isSome) (hab : ¬a = b) :
    ((renameEntries rs a b).filter (fun r => r.fileName == b)).length =
      (rs.filter (fun r => r.fileName == b)).length + 1 := by
  induction rs with
  | nil => simp [findRec] at ha
  | cons r rs ih =>
    by_cases hr : r.fileName = a
    · simp [renameEntries, hr, List.filter_cons, hab,
        fun h => hab (hr.symm.trans h)]
    · have ha' : (findRec rs a).isSome = true := by
        rw [findRec, if_neg (by simpa using hr)] at ha
        exact ha
      by_cases hb : r.fileName = b
      · simp [renameEntries, hr, List.filter_cons, hb, ih ha',
          show ¬b = a from fun h => hab h.symm]
      · simp [renameEntries, hr, List.filter_cons, hb, ih ha']

/-- C2 counterexample: in a library holding both `exA` and `exB`, editing
`exA` into the already-taken name `exB` raises no NameCollision (the
operation reports plain success), replaces the snip file stored under
`exB` (its content changes from 2 to the content 1 of `exA`), and leaves
the index with two records named `exB`. -/
theorem rename_collision_counterexample :
    Dialog.nameCollision ∉
      (updateItemName IoOracle.noFail exStateCollide exA exB).2 ∧
    (updateItemName IoOracle.noFail exStateCollide exA exB).2 =
      [Dialog.nameUpdated] ∧
    lookupA (updateItemName IoOracle.noFail exStateCollide exA
        exB).1.fs.snipFiles exB = some 1 ∧
    ¬lookupA (updateItemName IoOracle.noFail exStateCollide exA
        exB).1.fs.snipFiles exB =
      lookupA exStateCollide.fs.snipFiles exB ∧
    ((recordsOf (updateItemName IoOracle.noFail exStateCollide exA
        exB).1.fs.master).filter (fun r => r.fileName == exB)).length = 2 := by
  decide

/-- C2 (amended): no collision check exists in the rename path: when the
target identifier already has a record and a snip file, the operation
proceeds and reports plain success (never NameCollision), the old snip
file is moved onto the target path replacing the existing file, the old
name vanishes from the snip folder, and the renamed record joins the
pre-existing one so the index afterwards holds one more record under the
target identifier than before. -/
theorem rename_onto_existing_overwrites
    (s : UiState) (a b : String) (ca cb : Nat) (rs : List SnipRecord)
    (hmaster : s.fs.master = MasterFile.good rs)
    (hfa : lookupA s.fs.snipFiles a = some ca)
    (_hfb : lookupA s.fs.snipFiles b = some cb)
    (hra : (findRec rs a).isSome)
    (hab : ¬a = b)
    (hnofb : lookupA s.fs.flipbookDirs a = none)
    (hnosn : lookupA s.fs.snapshots a = none) :
    (updateItemName IoOracle.noFail s a b).2 = [Dialog.nameUpdated] ∧
    lookupA (updateItemName IoOracle.noFail s a b).1.fs.snipFiles b =
      some ca ∧
    lookupA (updateItemName IoOracle.noFail s a b).1.fs.snipFiles a =
      none ∧
    ((recordsOf (updateItemName IoOracle.noFail s a b).1.fs.master).filter
        (fun r => r.fileName == b)).length =
      (rs.filter (fun r => r.fileName == b)).length + 1 := by
  simp only [updateItemName, hfa, IoOracle.noFail,
    flipbookRenameStep, snapshotRenameStep, masterRenameStep,
    hnofb, hnosn, hmaster, refreshUi, loadJsonData, recordsOf]
  refine ⟨rfl, ?_, ?_, ?_⟩
  · exact lookupA_moveA_new _ _ _ _
  · exact lookupA_moveA_old _ _ _ _ hab
  · exact count_renameEntries_target rs a b hra hab

/-- Witness for C2 (amended) on the two-snip library. -/
theorem rename_onto_existing_overwrites_witness :
    lookupA (updateItemName IoOracle.noFail exStateCollide exA
        exB).1.fs.snipFiles exB = some 1 :=
  (rename_onto_existing_overwrites exStateCollide exA exB 1 2
    [exRecA, exRecB] rfl (by decide) (by decide) (by decide) (by decide)
    rfl rfl).2.1

/-! ## Claim C1 -/

theorem findRec_eq_none_of_all_ne (rs : List SnipRecord) (a : String)
    (h : ∀ r ∈ rs, ¬r.fileName = a) : findRec rs a = none := by
  induction rs with
  | nil => rfl
  | cons r rs ih =>
    simp [findRec, h r (List.mem_cons_self _ _)]
    exact ih (fun r' hr' => h r' (List.mem_cons_of_mem _ hr'))

/-- After renaming the unique record named `a` to `b`, no record named
`a` remains. -/
theorem findRec_renameEntries_old_none (rs : List SnipRecord) (a b : String)
    (hab : ¬a = b)
    (huniq : rs.countP (fun r => r.fileName == a) ≤ 1) :
    findRec (renameEntries rs a b) a = none := by
  induction rs with
  | nil => rfl
  | cons r rs ih =>
    by_cases hr : r.fileName = a
    · have h0 : rs.countP (fun r => r.fileName == a) = 0 := by
        rw [List.countP_cons] at huniq
        rw [if_pos (by simpa using hr)] at huniq
        omega
      have htail : ∀ r' ∈ rs, ¬r'.fileName = a := by
        intro r' hr'
        have := List.countP_eq_zero.mp h0 r' hr'
        simpa using this
      simp [renameEntries, hr, findRec,
        show ¬b = a from fun h => hab h.symm,
        findRec_eq_none_of_all_ne rs a htail]
    · have htail : rs.countP (fun r => r.fileName == a) ≤ 1 := by
        rw [List.countP_cons] at huniq
        rw [if_neg (by simpa using hr)] at huniq
        omega
      simp [renameEntries, hr, findRec, ih htail]

/-- After renaming some record named `a` to `b`, a record named `b`
exists. -/
theorem findRec_renameEntries_new_isSome (rs : List SnipRecord)
    (a b : String) (ha : (findRec rs a).isSome) :
    (findRec (renameEntries rs a b) b).isSome := by
  induction rs with
  | nil => simp [findRec] at ha
  | cons r rs ih =>
    by_cases hr : r.fileName = a
    · simp [renameEntries, hr, findRec]
    · have ha' : (findRec rs a).isSome = true := by
        rw [findRec, if_neg (by simpa using hr)] at ha
        exact ha
      by_cases hb : r.fileName = b
      · simp [renameEntries, hr, findRec, hb,
          show ¬b = a from fun h => hr (hb.trans h)]
      · simp [renameEntries, hr, findRec, hb, ih ha']

/-- Without injected failure and with nothing stored at the target name,
the flipbook block emits no dialog and moves an existing directory, with
all its frames renamed, to the new name. -/
theorem flipbookRenameStep_spec (dirs : List (String × List FlipFrame))
    (a b : String) (hab : ¬a = b) (hB : lookupA dirs b = none) :
    (flipbookRenameStep false dirs a b).2 = [] ∧
    ∀ frames, lookupA dirs a = some frames →
      lookupA (flipbookRenameStep false dirs a b).1 b =
          some (renameFramesTo frames a b) ∧
        lookupA (flipbookRenameStep false dirs a b).1 a = none := by
  refine ⟨?_, ?_⟩
  · cases hA : lookupA dirs a with
    | none => simp [flipbookRenameStep, hA]
    | some frames => simp [flipbookRenameStep, hA, hB]
  · intro f hf
    simp only [flipbookRenameStep, hf, hB, Bool.false_eq_true, if_false]
    exact ⟨lookupA_moveA_new _ _ _ _, lookupA_moveA_old _ _ _ _ hab⟩

/-- The snapshot analogue of `flipbookRenameStep_spec`. -/
theorem snapshotRenameStep_spec (snaps : List (String × Nat))
    (a b : String) (hab : ¬a = b) (_hB : lookupA snaps b = none) :
    (snapshotRenameStep false snaps a b).2 = [] ∧
    ∀ im, lookupA snaps a = some im →
      lookupA (snapshotRenameStep false snaps a b).1 b = some im ∧
        lookupA (snapshotRenameStep false snaps a b).1 a = none := by
  refine ⟨?_, ?_⟩
  · cases hA : lookupA snaps a with
    | none => simp [snapshotRenameStep, hA]
    | some im => simp [snapshotRenameStep, hA]
  · intro i hi
    simp only [snapshotRenameStep, hi, Bool.false_eq_true, if_false]
    exact ⟨lookupA_moveA_new _ _ _ _, lookupA_moveA_old _ _ _ _ hab⟩

/-- C1 counterexample: renaming `exA` to the fresh name `exB` in the
example library completes with the success dialog, yet the preview cache
still holds its entry keyed by the old identifier `exA` — the rename path
never invalidates the preview cache (`refresh_ui` does not clear it and
`update_item_name` only pops `json_cache`). -/
theorem rename_keeps_stale_preview_cache_counterexample :
    (updateItemName IoOracle.noFail exState exA exB).2 =
      [Dialog.nameUpdated] ∧
    findRec (recordsOf (updateItemName IoOracle.noFail exState exA
        exB).1.fs.master) exA = none ∧
    lookupA (updateItemName IoOracle.noFail exState exA
        exB).1.previewCache exA = some 7 := by
  decide

/-- C1 (amended): renaming `a` to a fresh identifier `b` (no record under
`b`, no stray artifacts at the target paths) reports success and moves
everything except the preview cache: afterwards the index — both the
saved file and the reloaded in-memory list — has no record under `a` and
a record under `b`, the snip file sits under `b`, a flipbook directory
or snapshot that existed under `a` now exists under `b` with its frames
renamed, but the preview cache is left exactly as it was, so an entry
keyed by `a` survives the rename. -/
theorem rename_updates_index_and_artifacts_but_not_preview_cache
    (s : UiState) (a b : String) (ca : Nat) (rs : List SnipRecord)
    (hmaster : s.fs.master = MasterFile.good rs)
    (hfa : lookupA s.fs.snipFiles a = some ca)
    (hra : (findRec rs a).isSome)
    (hrb : findRec rs b = none)
    (huniq : rs.countP (fun r => r.fileName == a) ≤ 1)
    (hfbB : lookupA s.fs.flipbookDirs b = none)
    (hsnB : lookupA s.fs.snapshots b = none) :
    (updateItemName IoOracle.noFail s a b).2 = [Dialog.nameUpdated] ∧
    findRec (recordsOf (updateItemName IoOracle.noFail s a
        b).1.fs.master) a = none ∧
    (findRec (recordsOf (updateItemName IoOracle.noFail s a
        b).1.fs.master) b).isSome ∧
    (updateItemName IoOracle.noFail s a b).1.jsonData =
      recordsOf (updateItemName IoOracle.noFail s a b).1.fs.master ∧
    lookupA (updateItemName IoOracle.noFail s a b).1.fs.snipFiles b =
      some ca ∧
    lookupA (updateItemName IoOracle.noFail s a b).1.fs.snipFiles a =
      none ∧
    (∀ frames, lookupA s.fs.flipbookDirs a = some frames →
      lookupA (updateItemName IoOracle.noFail s a b).1.fs.flipbookDirs b =
          some (renameFramesTo frames a b) ∧
        lookupA (updateItemName IoOracle.noFail s a b).1.fs.flipbookDirs a =
          none) ∧
    (∀ im, lookupA s.fs.snapshots a = some im →
      lookupA (updateItemName IoOracle.noFail s a b).1.fs.snapshots b =
          some im ∧
        lookupA (updateItemName IoOracle.noFail s a b).1.fs.snapshots a =
          none) ∧
    (updateItemName IoOracle.noFail s a b).1.previewCache =
      s.previewCache := by
  have hab : ¬a = b := by
    intro h
    rw [h, hrb] at hra
    cases hra
  have hfb := flipbookRenameStep_spec s.fs.flipbookDirs a b hab hfbB
  have hsn := snapshotRenameStep_spec s.fs.snapshots a b hab hsnB
  simp only [updateItemName, hfa, IoOracle.noFail, masterRenameStep,
    hmaster, refreshUi, loadJsonData, recordsOf, Bool.false_eq_true,
    if_false, hfb.1, hsn.1]
  refine ⟨?_, findRec_renameEntries_old_none rs a b hab huniq,
    findRec_renameEntries_new_isSome rs a b hra, ?_,
    lookupA_moveA_new _ _ _ _, lookupA_moveA_old _ _ _ _ hab,
    hfb.2, hsn.2, ?_⟩ <;> first | rfl | trivial

/-- Witness for C1 (amended): the rename of the fully equipped example
snip leaves the preview cache untouched. -/
theorem rename_updates_index_witness :
    (updateItemName IoOracle.noFail exState exA exB).1.previewCache =
      exState.previewCache :=
  (rename_updates_index_and_artifacts_but_not_preview_cache exState exA
    exB 1 [exRecA] rfl (by decide) (by decide) (by decide) (by decide)
    rfl rfl).2.2.2.2.2.2.2.2

end EFX
